import Mathlib

/-
Verification of the NodeMesh assistant backend (src/backend/server.js and its
variants under src/unnamed/).  JavaScript strings are modelled as List Char,
fallible code as Except / Option, and the behaviour of each network call is
supplied by an oracle argument so that control flow can be proved for every
outcome of the external providers.
-/

namespace NodeMesh

/-- chars converts a Lean string literal to the List Char representation used
throughout this development. -/
def chars (s : String) : List Char := s.data

/-- isWsChar models the whitespace class relevant to String.prototype.trim and
to the \s regex class for the characters that actually occur here. -/
def isWsChar (c : Char) : Bool := c == ' ' || c == '\t' || c == '\n' || c == '\r'

/-- trimJS models JavaScript String.prototype.trim on List Char. -/
def trimJS (l : List Char) : List Char :=
  ((l.dropWhile isWsChar).reverse.dropWhile isWsChar).reverse

/-- lowerL models String.prototype.toLowerCase (ASCII case mapping suffices for
every keyword tested by the source). -/
def lowerL (l : List Char) : List Char := l.map Char.toLower

/-- hasSubstr hay needle models hay.includes(needle), and equally a regex test
of a literal word against hay. -/
def hasSubstr : List Char → List Char → Bool
  | [], needle => needle.isEmpty
  | c :: t, needle => needle.isPrefixOf (c :: t) || hasSubstr t needle

/-- Json is the value domain of JSON.parse as used by the backend.  A numeric
literal keeps its source token (the backend only interpolates numbers back into
text, so their double value is never needed). -/
inductive Json where
  | null
  | bool (b : Bool)
  | num (tok : List Char)
  | str (s : List Char)
  | arr (elems : List Json)
  | obj (fields : List (List Char × Json))

/-- skipWs drops JSON insignificant whitespace. -/
def skipWs (l : List Char) : List Char := l.dropWhile isWsChar

/-- numChar is the character class used to lex a JSON numeric token. -/
def numChar (c : Char) : Bool :=
  c.isDigit || c == '-' || c == '+' || c == '.' || c == 'e' || c == 'E'

/-- expPart validates the optional exponent tail of a JSON number token. -/
def expPart : List Char → Bool
  | [] => true
  | c :: t =>
    if c == 'e' || c == 'E' then
      let t2 := match t with
        | '+' :: r => r
        | '-' :: r => r
        | r => r
      !t2.isEmpty && t2.all Char.isDigit
    else false

/-- fracPart validates the optional fraction (then exponent) tail of a JSON
number token. -/
def fracPart : List Char → Bool
  | '.' :: t => !(t.takeWhile Char.isDigit).isEmpty && expPart (t.dropWhile Char.isDigit)
  | t => expPart t

/-- validNumber checks that a lexed token is a JSON number (JSON.parse rejects
malformed numerals). -/
def validNumber (tok : List Char) : Bool :=
  let t1 := match tok with
    | '-' :: t => t
    | t => t
  match t1 with
  | [] => false
  | '0' :: t2 => fracPart t2
  | c :: _ => c.isDigit && fracPart (t1.dropWhile Char.isDigit)

/-- hexVal decodes one hexadecimal digit of a \u escape. -/
def hexVal (c : Char) : Option Nat :=
  if c.isDigit then some (c.toNat - 48)
  else if 97 ≤ c.toNat && c.toNat ≤ 102 then some (c.toNat - 87)
  else if 65 ≤ c.toNat && c.toNat ≤ 70 then some (c.toNat - 55)
  else none

/-- pString parses the body of a JSON string after the opening quote,
decoding escapes (surrogate pairs of \u escapes are not recombined; no claim
depends on them).  Returns the decoded content and the input after the closing
quote. -/
def pString : List Char → List Char → Option (List Char × List Char)
  | [], _ => none
  | c :: t, acc =>
    if c == '"' then some (acc.reverse, t)
    else if c == '\\' then
      match t with
      | [] => none
      | e :: r =>
        if e == '"' then pString r ('"' :: acc)
        else if e == '\\' then pString r ('\\' :: acc)
        else if e == '/' then pString r ('/' :: acc)
        else if e == 'n' then pString r ('\n' :: acc)
        else if e == 't' then pString r ('\t' :: acc)
        else if e == 'r' then pString r ('\r' :: acc)
        else if e == 'b' then pString r (Char.ofNat 8 :: acc)
        else if e == 'f' then pString r (Char.ofNat 12 :: acc)
        else if e == 'u' then
          match r with
          | h1 :: h2 :: h3 :: h4 :: r2 =>
            match hexVal h1, hexVal h2, hexVal h3, hexVal h4 with
            | some a, some b, some c2, some d =>
              pString r2 (Char.ofNat (((a * 16 + b) * 16 + c2) * 16 + d) :: acc)
            | _, _, _, _ => none
          | _ => none
        else none
    else if c.toNat < 32 then none
    else pString t (c :: acc)

mutual

/-- pVal is a fuel-indexed recursive descent parser for one JSON value,
mirroring the grammar JSON.parse accepts. -/
def pVal : Nat → List Char → Option (Json × List Char)
  | 0, _ => none
  | fuel + 1, input =>
    match skipWs input with
    | [] => none
    | c :: t =>
      if c == 'n' then
        if (chars "ull").isPrefixOf t then some (Json.null, t.drop 3) else none
      else if c == 't' then
        if (chars "rue").isPrefixOf t then some (Json.bool true, t.drop 3) else none
      else if c == 'f' then
        if (chars "alse").isPrefixOf t then some (Json.bool false, t.drop 4) else none
      else if c == '"' then
        match pString t [] with
        | some (s, rest) => some (Json.str s, rest)
        | none => none
      else if c == '[' then pArr fuel t
      else if c == '\x7b' then pObj fuel t
      else if c == '-' || c.isDigit then
        let tok := (c :: t).takeWhile numChar
        if validNumber tok then some (Json.num tok, (c :: t).dropWhile numChar) else none
      else none

/-- pArr parses the elements after an opening bracket (empty array only). -/
def pArr : Nat → List Char → Option (Json × List Char)
  | 0, _ => none
  | fuel + 1, input =>
    match skipWs input with
    | ']' :: t => some (Json.arr [], t)
    | other =>
      match pVal fuel other with
      | none => none
      | some (j, rest) => pArrTail fuel rest [j]

/-- pArrTail parses the remaining comma separated elements of an array. -/
def pArrTail : Nat → List Char → List Json → Option (Json × List Char)
  | 0, _, _ => none
  | fuel + 1, input, acc =>
    match skipWs input with
    | ',' :: t =>
      match pVal fuel t with
      | none => none
      | some (j, rest) => pArrTail fuel rest (j :: acc)
    | ']' :: t => some (Json.arr acc.reverse, t)
    | _ => none

/-- pObj parses the members after an opening brace (empty object only). -/
def pObj : Nat → List Char → Option (Json × List Char)
  | 0, _ => none
  | fuel + 1, input =>
    match skipWs input with
    | '\x7d' :: t => some (Json.obj [], t)
    | other =>
      match pMember fuel other with
      | none => none
      | some (k, j, rest) => pObjTail fuel rest [(k, j)]

/-- pObjTail parses the remaining comma separated members of an object. -/
def pObjTail : Nat → List Char → List (List Char × Json) → Option (Json × List Char)
  | 0, _, _ => none
  | fuel + 1, input, acc =>
    match skipWs input with
    | ',' :: t =>
      match pMember fuel t with
      | none => none
      | some (k, j, rest) => pObjTail fuel rest ((k, j) :: acc)
    | '\x7d' :: t => some (Json.obj acc.reverse, t)
    | _ => none

/-- pMember parses one key : value member of an object. -/
def pMember : Nat → List Char → Option (List Char × Json × List Char)
  | 0, _ => none
  | fuel + 1, input =>
    match skipWs input with
    | '"' :: t =>
      match pString t [] with
      | none => none
      | some (k, rest) =>
        match skipWs rest with
        | ':' :: r2 =>
          match pVal fuel r2 with
          | none => none
          | some (j, r3) => some (k, j, r3)
        | _ => none
    | _ => none

end

/-- parseJson models JSON.parse : the whole input must be consumed up to
trailing whitespace, otherwise the parse throws, which extractJson turns into
null. -/
def parseJson (s : List Char) : Option Json :=
  match pVal (s.length + 1) s with
  | some (j, rest) => if skipWs rest = [] then some j else none
  | none => none

/-! ### extractJson (src/backend/server.js lines 53-64)

The source applies text.match to the single alternation regex with the fenced
alternative on the left and the brace alternative on the right, then parses the
captured group after trim:

  const jsonMatch = text.match(RE) where RE = fenced alternative | brace span

JavaScript match finds the leftmost position where either alternative matches,
preferring the left alternative at equal positions.  The fenced alternative
anchors at a literal backtick-backtick-backtick-json, then takes the lazy span
up to the first later triple backtick; its two \s* groups only remove
whitespace that the subsequent .trim() removes again, so the group is modelled
as the raw span.  The brace alternative takes a greedy span from an opening
brace to the last closing brace of the whole text.  When the fenced group is
the empty string the source falls to the undefined second group and the
resulting TypeError is caught, returning null, observationally equal to the
failed parse of the empty span modelled here. -/

/-- ticks is the closing fence token of three backticks. -/
def ticks : List Char := chars "```"

/-- fenceLabel is the opening fence token of three backticks followed by json. -/
def fenceLabel : List Char := chars "```json"

/-- splitAtTicks splits a list at the first occurrence of the closing fence,
returning the part before it and the part after it. -/
def splitAtTicks : List Char → Option (List Char × List Char)
  | [] => none
  | c :: t =>
    if ticks.isPrefixOf (c :: t) then some ([], (c :: t).drop 3)
    else
      match splitAtTicks t with
      | some (b, a) => some (c :: b, a)
      | none => none

/-- fenceMatchAt tries the fenced alternative of the regex at the head of the
list, returning the captured span. -/
def fenceMatchAt (l : List Char) : Option (List Char) :=
  if fenceLabel.isPrefixOf l then
    match splitAtTicks (l.drop 7) with
    | some (body, _) => some body
    | none => none
  else none

/-- braceMatchAt tries the brace alternative of the regex at the head of the
list: an opening brace with some later closing brace captures greedily up to
the last closing brace. -/
def braceMatchAt : List Char → Option (List Char)
  | [] => none
  | c :: t =>
    if c == '\x7b' && t.contains '\x7d' then
      some ('\x7b' :: (t.reverse.dropWhile (fun x => x != '\x7d')).reverse)
    else none

/-- regexScan scans for the leftmost position where either alternative
matches, preferring the fenced alternative at equal positions, exactly as the
single-regex alternation in the source behaves. -/
def regexScan : List Char → Option (List Char)
  | [] => none
  | c :: t =>
    match fenceMatchAt (c :: t) with
    | some g => some g
    | none =>
      match braceMatchAt (c :: t) with
      | some g => some g
      | none => regexScan t

/-- extractJson models the function of the same name in src/backend/server.js:
null or empty text gives null, otherwise the regex candidate is parsed after
trim and any parse failure gives null. -/
def extractJson : Option (List Char) → Option Json
  | none => none
  | some l =>
    if l = [] then none
    else
      match regexScan l with
      | none => none
      | some g => parseJson (trimJS g)

example : parseJson (chars "\x7b\"a\": 1\x7d") =
    some (Json.obj [(chars "a", Json.num (chars "1"))]) := rfl

example : extractJson (some (chars "note ```json \x7b\"a\": 1\x7d ``` end")) =
    some (Json.obj [(chars "a", Json.num (chars "1"))]) := rfl

/-! ### callGemini (src/backend/server.js lines 66-118)

The loop over candidate models is driven by an oracle giving the outcome of
the one network call issued per candidate.  reply carries the text payload of
a 2xx answer (possibly empty, which the source turns into a thrown Empty
response error whose undefined status falls through every status check and so
continues the loop); http carries the status of a rejected request; netErr is
any transport fault without a response status (timeout, connection reset). -/

/-- GOut is the outcome of one generateContent network call. -/
inductive GOut where
  | reply (text : List Char)
  | http (status : Nat)
  | netErr
deriving DecidableEq

/-- GErr is the error a callGemini run can raise to its caller. -/
inductive GErr where
  | noKey
  | emptyResp (model : String)
  | httpErr (status : Nat) (model : String)
  | net (model : String)
  | exhausted
deriving DecidableEq

/-- GEvent records the observable effects of the loop: one network call per
attempted candidate, and the fixed 3000 ms cooldown the source awaits after a
rate limited candidate before continuing. -/
inductive GEvent where
  | call (model : String)
  | wait (ms : Nat)
deriving DecidableEq

/-- runModels is the fallback loop of callGemini: success with a truthy text
returns at once; status 429 waits 3000 ms and continues; 404 and 503 continue
at once; 400 breaks out of the loop and the just recorded error is thrown;
every other fault records the error and continues.  After exhaustion the last
recorded error (or the generic exhaustion error) is thrown. -/
def runModels (oracle : String → GOut) : List String → Option GErr →
    Except GErr (List Char) × List GEvent
  | [], lastErr => (Except.error (lastErr.getD GErr.exhausted), [])
  | m :: rest, _lastErr =>
    match oracle m with
    | GOut.reply t =>
      if t = [] then
        let p := runModels oracle rest (some (GErr.emptyResp m))
        (p.1, GEvent.call m :: p.2)
      else (Except.ok t, [GEvent.call m])
    | GOut.http s =>
      if s = 429 then
        let p := runModels oracle rest (some (GErr.httpErr 429 m))
        (p.1, GEvent.call m :: GEvent.wait 3000 :: p.2)
      else if s = 404 ∨ s = 503 then
        let p := runModels oracle rest (some (GErr.httpErr s m))
        (p.1, GEvent.call m :: p.2)
      else if s = 400 then
        (Except.error (GErr.httpErr 400 m), [GEvent.call m])
      else
        let p := runModels oracle rest (some (GErr.httpErr s m))
        (p.1, GEvent.call m :: p.2)
    | GOut.netErr =>
      let p := runModels oracle rest (some (GErr.net m))
      (p.1, GEvent.call m :: p.2)

/-- serverModelsToTry is the candidate list of src/backend/server.js: the
preferred model first, then the fixed fallbacks, with no deduplication. -/
def serverModelsToTry (model : String) : List String :=
  [model, "gemini-2.0-flash", "gemini-1.5-flash-latest", "gemini-1.5-flash-002"]

/-- callGemini models the function of src/backend/server.js: a missing key
throws at once, otherwise the fallback loop runs over serverModelsToTry. -/
def callGemini (hasKey : Bool) (oracle : String → GOut) (model : String) :
    Except GErr (List Char) × List GEvent :=
  if hasKey then runModels oracle (serverModelsToTry model) none
  else (Except.error GErr.noKey, [])

/-- part002ModelsToTry is the candidate list of the src/unnamed/part_002
variant: the preferred model if truthy, then gemini-2.0-flash only when not
already present. -/
def part002ModelsToTry (model : String) : List String :=
  let l := if model = "" then [] else [model]
  if l.contains "gemini-2.0-flash" then l else l ++ ["gemini-2.0-flash"]

/-! ### fallbackIntentDetection (src/backend/server.js lines 120-128) -/

/-- weatherKeywords is the alternation of the weather regex. -/
def weatherKeywords : List (List Char) :=
  ["weather", "forecast", "temp", "rain", "snow", "storm", "climate", "wind",
   "humidity"].map chars

/-- newsKeywords is the alternation of the news regex. -/
def newsKeywords : List (List Char) :=
  ["news", "headline", "article", "update", "breaking", "latest"].map chars

/-- testAny models regex.test of an alternation of literal lowercase words
against an already lowercased message (the i flag is then redundant). -/
def testAny (kws : List (List Char)) (l : List Char) : Bool :=
  kws.any (fun k => hasSubstr l k)

/-- IntentRes is the object literal returned by fallbackIntentDetection; a
field holds none where the source object omits it (undefined). -/
structure IntentRes where
  intent : List Char
  location : Option (List Char)
  topic : Option (List Char)
  activity : Option (List Char)
deriving DecidableEq

/-- fallbackIntentDetection models the function of src/backend/server.js:
the weather keyword set is tested first on the lowercased message, then the
news set, and general otherwise. -/
def fallbackIntentDetection (userMessage : List Char) : IntentRes :=
  let lower := lowerL userMessage
  if testAny weatherKeywords lower then
    ⟨chars "weather", some [], none, some []⟩
  else if testAny newsKeywords lower then
    ⟨chars "news", none, some [], none⟩
  else ⟨chars "general", none, none, none⟩

/-! ### Session memory (src/unnamed/part_002 lines 63-78, part_004 44-55) -/

/-- MAX_HISTORY_TURNS is the configured sliding window bound. -/
def MAX_HISTORY_TURNS : Nat := 6

/-- Turn is one stored conversation entry. -/
structure Turn where
  role : String
  text : String
deriving DecidableEq

/-- lastN models Array.prototype.slice with a negative index: the most recent
n entries (the whole list when it is shorter). -/
def lastN (n : Nat) (l : List Turn) : List Turn := l.drop (l.length - n)

/-- toTurn is the entry pushed by updateSessionHistory: any role other than
user is stored as model. -/
def toTurn (e : String × String) : Turn :=
  ⟨if e.1 = "user" then "user" else "model", e.2⟩

/-- updateSessionHistory models the function of src/unnamed/part_002: push the
new entry, then cut back to the last MAX_HISTORY_TURNS * 2 entries when the
bound is exceeded. -/
def updateSessionHistory (history : List Turn) (role text : String) : List Turn :=
  let h2 := history ++ [toTurn (role, text)]
  if h2.length > MAX_HISTORY_TURNS * 2 then lastN (MAX_HISTORY_TURNS * 2) h2 else h2

/-- appendAll folds a sequence of appends for one session id over the empty
history that getSessionHistory creates lazily. -/
def appendAll (es : List (String × String)) : List Turn :=
  es.foldl (fun h e => updateSessionHistory h e.1 e.2) []

/-! ### handleWeather (src/backend/server.js lines 181-241) -/

/-- escChar escapes one character for jsonStringify. -/
def escChar (c : Char) : List Char :=
  if c == '"' then ['\\', '"']
  else if c == '\\' then ['\\', '\\']
  else if c == '\n' then ['\\', 'n']
  else if c == '\t' then ['\\', 't']
  else if c == '\r' then ['\\', 'r']
  else [c]

/-- escStr escapes a string body for jsonStringify. -/
def escStr (s : List Char) : List Char := s.foldr (fun c acc => escChar c ++ acc) []

mutual

/-- jsonStringify models JSON.stringify on the Json domain (used by the object
branch of the location normalisation). -/
def jsonStringify : Json → List Char
  | Json.null => chars "null"
  | Json.bool true => chars "true"
  | Json.bool false => chars "false"
  | Json.num t => t
  | Json.str s => '"' :: (escStr s ++ ['"'])
  | Json.arr xs => '[' :: (jsonStringifyList xs ++ [']'])
  | Json.obj fs => '\x7b' :: (jsonStringifyFields fs ++ ['\x7d'])

/-- jsonStringifyList renders array elements. -/
def jsonStringifyList : List Json → List Char
  | [] => []
  | [x] => jsonStringify x
  | x :: y :: xs => jsonStringify x ++ ',' :: jsonStringifyList (y :: xs)

/-- jsonStringifyFields renders object members. -/
def jsonStringifyFields : List (List Char × Json) → List Char
  | [] => []
  | [(k, v)] => '"' :: (escStr k ++ ['"', ':'] ++ jsonStringify v)
  | (k, v) :: f :: fs =>
    '"' :: (escStr k ++ ['"', ':'] ++ jsonStringify v) ++ ',' :: jsonStringifyFields (f :: fs)

end

/-- LocIn is the location argument the dispatcher passes to handleWeather:
null, a plain string, or an object parsed out of the classifier reply. -/
inductive LocIn where
  | nullv
  | strv (s : List Char)
  | objv (j : Json)

/-- jStrField reads a truthy string field of an object, as the optional
chaining location.city and friends do (a truthy non-string field would be
coerced by the later String(); no code path of interest produces one). -/
def jStrField (j : Json) (k : List Char) : Option (List Char) :=
  match j with
  | Json.obj fs =>
    match (fs.find? (fun f => f.1 == k)).map (fun f => f.2) with
    | some (Json.str s) => if s = [] then none else some s
    | _ => none
  | _ => none

/-- locToStr is the location normalisation of handleWeather: an object yields
its city, name or location field or its JSON.stringify rendering, then
String(x or empty).trim is applied by resolveWeatherQuery. -/
def locToStr : LocIn → List Char
  | LocIn.nullv => []
  | LocIn.strv s => s
  | LocIn.objv j =>
    match jStrField j (chars "city") with
    | some s => s
    | none =>
      match jStrField j (chars "name") with
      | some s => s
      | none =>
        match jStrField j (chars "location") with
        | some s => s
        | none => jsonStringify j

/-- resolveWeatherQuery is the query rewriting of handleWeather: trim, then
append a country hint when the lowercased query does not already contain
india, then map an exactly matching delhi to New Delhi, India. -/
def resolveWeatherQuery (loc : LocIn) : List Char :=
  let q0 := trimJS (locToStr loc)
  let q1 := if q0 ≠ [] && !(hasSubstr (lowerL q0) (chars "india")) then
      q0 ++ chars ", India"
    else q0
  if lowerL q1 = chars "delhi" then chars "New Delhi, India" else q1

/-- WeatherData is what the formatting code reads out of the provider payload
(numeric fields are kept as the rendered text the template interpolates). -/
structure WeatherData where
  name : List Char
  region : List Char
  country : List Char
  condition : List Char
  tempC : List Char
  feelslikeC : List Char
  humidity : List Char
  windKph : List Char
  windDir : List Char
  sunrise : Option (List Char)
  sunset : Option (List Char)
  localtime : Option (List Char)

/-- formatWeather renders the fixed report template.  The source renders the
local date and time through locale formatting of a Date; that cosmetic
rendering is represented by the raw localtime text. -/
def formatWeather (d : WeatherData) (activity : Option (List Char))
    (advice : Except Unit (List Char)) : List Char :=
  let timeInfo := match d.localtime with
    | some lt => chars "📅 " ++ lt ++ chars "\n"
    | none => []
  let base :=
    chars "**Weather for " ++ d.name ++ chars ", " ++ d.region ++ chars ", " ++
    d.country ++ chars "**\n" ++ timeInfo ++
    chars "**Condition:** " ++ d.condition ++ chars "\n" ++
    chars "🌡️ **Temp:** " ++ d.tempC ++ chars "°C (Feels like: " ++ d.feelslikeC ++
    chars "°C)\n" ++
    chars "💧 **Humidity:** " ++ d.humidity ++ chars "%\n" ++
    chars "💨 **Wind:** " ++ d.windKph ++ chars " km/h " ++ d.windDir ++ chars "\n" ++
    chars "🌅 **Sunrise:** " ++ (d.sunrise.getD (chars "N/A")) ++
    chars " | 🌇 **Sunset:** " ++ (d.sunset.getD (chars "N/A"))
  match activity with
  | some a =>
    if a = [] then base
    else
      match advice with
      | Except.ok s =>
        base ++ chars "\n\n**Activity Outlook (" ++ a ++ chars "):**\n" ++ s
      | Except.error _ =>
        base ++ chars "\n\n(Could not generate specific advice for " ++ a ++ chars ")"
  | none => base

/-- locDisplay is the raw location variable interpolated into the apology of
the catch branch (an object renders as its JavaScript string coercion). -/
def locDisplay : LocIn → List Char
  | LocIn.nullv => chars "null"
  | LocIn.strv s => s
  | LocIn.objv _ => chars "[object Object]"

/-- WeatherCall is the observable result of one handleWeather run: the reply
text, and the query string sent to the weather provider when a request was
issued at all. -/
structure WeatherCall where
  reply : List Char
  sent : Option (List Char)

/-- handleWeather models the function of src/backend/server.js: missing
credential and empty resolved query return fixed messages without any provider
request; otherwise one forecast request is issued for the resolved query and
either formatted or degraded to an apology. -/
def handleWeather (hasKey : Bool) (loc : LocIn) (activity : Option (List Char))
    (oracle : List Char → Option WeatherData) (advice : Except Unit (List Char)) :
    WeatherCall :=
  if hasKey then
    let q := resolveWeatherQuery loc
    if q = [] then ⟨chars "Please provide a valid location.", none⟩
    else
      match oracle q with
      | some d => ⟨formatWeather d activity advice, some q⟩
      | none =>
        ⟨chars "I couldn\x27t find precise weather for \"" ++ locDisplay loc ++
         chars "\". Try adding the state name.", some q⟩
  else ⟨chars "Weather service is not configured.", none⟩

/-! ### handleNews (src/backend/server.js lines 243-286) -/

/-- newsBlacklist is the stopword list of extractNewsKeywords. -/
def newsBlacklist : List (List Char) :=
  ["news", "headline", "latest", "about", "on", "for", "update"].map chars

/-- splitWsAux splits on whitespace; unlike split(/\s+/) it produces an empty
word per extra whitespace character, but every empty word is removed by the
length filter of extractNewsKeywords, so the results agree there. -/
def splitWsAux : List Char → List Char → List (List Char)
  | [], cur => [cur.reverse]
  | c :: t, cur =>
    if isWsChar c then cur.reverse :: splitWsAux t [] else splitWsAux t (c :: cur)

/-- splitWs splits a list into whitespace separated words. -/
def splitWs (l : List Char) : List (List Char) := splitWsAux l []

/-- joinSpaces models Array.prototype.join with a single space. -/
def joinSpaces : List (List Char) → List Char
  | [] => []
  | [w] => w
  | w :: x :: ws => w ++ ' ' :: joinSpaces (x :: ws)

/-- extractNewsKeywords models the function of src/backend/server.js. -/
def extractNewsKeywords (text : List Char) : List Char :=
  if text = [] then []
  else
    joinSpaces ((splitWs (lowerL text)).filter
      (fun w => !(newsBlacklist.contains w) && decide (w.length > 2)))

/-- Article is one headline of the provider payload. -/
structure Article where
  title : List Char
  sourceName : List Char
  url : List Char

/-- NewsReq is the request the fallback path sends to the headlines provider. -/
structure NewsReq where
  country : String
  q : Option (List Char)
  category : Option String
deriving DecidableEq

/-- formatArticle renders one numbered headline. -/
def formatArticle (i : Nat) (a : Article) : List Char :=
  chars "**" ++ chars (toString (i + 1)) ++ chars ". " ++ a.title ++
  chars "**\n   📰 *" ++ a.sourceName ++ chars "*" ++
  (if a.url = [] then [] else chars " • [Read](" ++ a.url ++ chars ")")

/-- formatArticles renders the numbered list joined by blank lines. -/
def formatArticles : Nat → List Article → List Char
  | _, [] => []
  | i, [a] => formatArticle i a
  | i, a :: b :: rest => formatArticle i a ++ chars "\n\n" ++ formatArticles (i + 1) (b :: rest)

/-- NewsCall is the observable result of one handleNews run: the reply text
and the request sent to the headlines provider when one was issued at all. -/
structure NewsCall where
  reply : List Char
  sent : Option NewsReq

/-- newsFallback is the provider path of handleNews, reached only when the
completion summary failed or refused. -/
def newsFallback (topic : Option (List Char)) (originalMessage : List Char)
    (news : NewsReq → Option (List Article)) : NewsCall :=
  let topicOr := match topic with
    | some t => if t = [] then originalMessage else t
    | none => originalMessage
  let keywords := extractNewsKeywords topicOr
  let topicStr := match topic with
    | some t => t
    | none => []
  let isIndia := hasSubstr (lowerL originalMessage) (chars "india") ||
    hasSubstr (lowerL topicStr) (chars "india")
  let req : NewsReq :=
    ⟨if isIndia then "in" else "us",
     if keywords = [] then none else some keywords,
     if keywords = [] then some "general" else none⟩
  match news req with
  | none => ⟨chars "Sorry, I couldn\x27t fetch the news right now.", some req⟩
  | some [] =>
    ⟨chars "No recent news articles found for " ++
     (if isIndia then chars "India" else chars "the US") ++ chars ".", some req⟩
  | some (a :: arts) =>
    ⟨chars "**📰 " ++
     (if isIndia then chars "Top India Headlines" else chars "Latest Headlines") ++
     chars ":**\n\n" ++ formatArticles 0 (a :: arts), some req⟩

/-- handleNews models the function of src/backend/server.js: missing
credential returns a fixed message; otherwise the completion summary is tried
first and returned at once when truthy and not a refusal, and only on failure
or refusal does the keyword, region and provider path run. -/
def handleNews (hasKey : Bool) (topic : Option (List Char)) (originalMessage : List Char)
    (gem : Except Unit (List Char)) (news : NewsReq → Option (List Article)) : NewsCall :=
  if hasKey then
    match gem with
    | Except.ok raw =>
      if raw ≠ [] && !(hasSubstr raw (chars "cannot fulfill")) then ⟨raw, none⟩
      else newsFallback topic originalMessage news
    | Except.error _ => newsFallback topic originalMessage news
  else ⟨chars "News service is not configured.", none⟩

/-! ### handleGeneralResponse (src/backend/server.js lines 288-332) and the
general branch of the part_004 dispatcher (src/unnamed/part_004 lines 191-216) -/

/-- GitaData is the three field structured reply of the spiritual support
call (part_004 names the second field translit). -/
structure GitaData where
  sanskrit : List Char
  englishTransliteration : List Char
  meaning : List Char

/-- JsErr is an uncaught JavaScript exception escaping to the dispatcher. -/
inductive JsErr where
  | typeError
  | providerFault
deriving DecidableEq

/-- distressKeywords is the keyword gate forcing a low mood result. -/
def distressKeywords : List (List Char) :=
  ["worried", "worry", "anxious", "sad", "depressed", "tired"].map chars

/-- creativeKeywords is the keyword gate for creative mode. -/
def creativeKeywords : List (List Char) :=
  ["write", "essay", "story", "poem", "blog", "article", "code", "script"].map chars

/-- gitaReply is the formatted spiritual support reply of server.js. -/
def gitaReply (g : GitaData) : List Char :=
  chars "I sense you might be going through a tough moment. Here is some timeless wisdom from the Bhagavad Gita:\n\n**" ++
  g.sanskrit ++ chars "**\n*" ++ g.englishTransliteration ++ chars "*\n\n" ++ g.meaning

/-- handleGeneralResponse models the function of src/backend/server.js.
analyzerLow is the sentiment analyzer outcome (none when it was skipped,
failed or unparseable, in which case the keyword based initial value stays);
gita is the getGitaSupport outcome (none on any failure); completion is the
final conversational call.  The sarcasm result only alters the prompt of that
call, which the completion oracle already ranges over.  Every failure of a
sub-call degrades, so the function never produces an error value. -/
def handleGeneralResponse (userMessage : List Char) (analyzerLow : Option Bool)
    (gita : Option GitaData) (completion : Except Unit (List Char)) :
    Except JsErr (List Char) :=
  let lower := lowerL userMessage
  let hasDistressKeyword := testAny distressKeywords lower
  let isCreativeMode := testAny creativeKeywords lower
  let sentLow :=
    if !hasDistressKeyword && !isCreativeMode then analyzerLow.getD hasDistressKeyword
    else hasDistressKeyword
  let gitaBranch : Option (List Char) :=
    if sentLow && !isCreativeMode then
      match gita with
      | some g => some (gitaReply g)
      | none => none
    else none
  match gitaBranch with
  | some r => Except.ok r
  | none =>
    match completion with
    | Except.ok t => Except.ok t
    | Except.error _ => Except.ok (chars "I\x27m here if you need to talk.")

/-- getGitaSupport_part004 models the helper of src/unnamed/part_004: any
failure of the completion or of JSON.parse is caught and becomes null. -/
def getGitaSupport_part004 (outcome : Except Unit GitaData) : Option GitaData :=
  match outcome with
  | Except.ok g => some g
  | Except.error _ => none

/-- part004GeneralBranch models the general branch inside the part_004 chat
route (lines 200-216): when the sentiment call reports low mood the reply
template dereferences gita.sanskrit without a null guard, so a null from
getGitaSupport_part004 raises a TypeError that propagates to the route level
catch; otherwise the conversational completion reply is returned, and its
rejection propagates as well. -/
def part004GeneralBranch (low : Bool) (gitaOutcome : Except Unit GitaData)
    (completion : Except Unit (List Char)) : Except JsErr (List Char) :=
  if low then
    match getGitaSupport_part004 gitaOutcome with
    | some g =>
      Except.ok (chars "**Bhagavad Gita Spiritual Support:**\n\n**" ++ g.sanskrit ++
        chars "**\n*" ++ g.englishTransliteration ++ chars "*\n\n" ++ g.meaning)
    | none => Except.error JsErr.typeError
  else
    match completion with
    | Except.ok r => Except.ok r
    | Except.error _ => Except.error JsErr.providerFault

/-! ## Claims -/

/-- C1: the Response Strategies of server.js absorb every internal fault and
return a string, but the general branch of the part_004 dispatcher is not
total: with a low mood sentiment and a failed spiritual support call the
template dereferences the null result and raises a TypeError to the
Dispatcher, contradicting the propagation policy.  The first conjunct
evaluates that failing path; the second shows the server.js general strategy
returns a value for every analyzer, spiritual support and completion outcome. -/
theorem part004_gita_raises_but_server_strategies_total :
    part004GeneralBranch true (Except.error ()) (Except.ok (chars "hello")) =
      Except.error JsErr.typeError
    ∧ ∀ (msg : List Char) (analyzerLow : Option Bool) (gita : Option GitaData)
        (completion : Except Unit (List Char)),
        (handleGeneralResponse msg analyzerLow gita completion).isOk = true := by
  refine ⟨rfl, ?_⟩
  intro msg analyzerLow gita completion
  unfold handleGeneralResponse
  dsimp only
  split
  · rfl
  · split <;> rfl

/-- C3: a bad request status stops the fallback loop of callGemini at once:
the observed error is raised and no remaining candidate is called.  The loop
processes candidates as the head of the remaining list, so the statement for
the head candidate is the general loop step; the second conjunct instantiates
it to a bad request on the very first candidate of a callGemini run. -/
theorem callGemini_badRequest_stops :
    (∀ (oracle : String → GOut) (m : String) (rest : List String)
        (lastErr : Option GErr),
        oracle m = GOut.http 400 →
        runModels oracle (m :: rest) lastErr =
          (Except.error (GErr.httpErr 400 m), [GEvent.call m]))
    ∧ ∀ (oracle : String → GOut) (model : String),
        oracle model = GOut.http 400 →
        callGemini true oracle model =
          (Except.error (GErr.httpErr 400 model), [GEvent.call model]) := by
  constructor
  · intro oracle m rest lastErr h
    simp [runModels, h]
  · intro oracle model h
    simp [callGemini, serverModelsToTry, runModels, h]

/-- C3 witness: a concrete oracle answering 400 on the first candidate. -/
theorem callGemini_badRequest_stops_witness :
    runModels (fun _ => GOut.http 400) ["gemini-2.0-flash", "other"] none =
      (Except.error (GErr.httpErr 400 "gemini-2.0-flash"),
       [GEvent.call "gemini-2.0-flash"]) :=
  callGemini_badRequest_stops.1 (fun _ => GOut.http 400) "gemini-2.0-flash"
    ["other"] none rfl

/-- C2: when the first candidates are all rate limited and the next one
replies with truthy text, callGemini returns that text; the trace shows one
call per rate limited candidate followed by the fixed 3000 ms cooldown, then
the successful call, so a rate limit neither aborts the loop nor restarts it. -/
theorem callGemini_rateLimit_falls_through :
    ∀ (oracle : String → GOut) (ms1 : List String) (m : String)
      (rest : List String) (t : List Char) (lastErr : Option GErr),
      (∀ x ∈ ms1, oracle x = GOut.http 429) → oracle m = GOut.reply t → t ≠ [] →
      runModels oracle (ms1 ++ m :: rest) lastErr =
        (Except.ok t,
         ms1.flatMap (fun x => [GEvent.call x, GEvent.wait 3000]) ++ [GEvent.call m]) := by
  intro oracle ms1
  induction ms1 with
  | nil =>
    intro m rest t lastErr h429 hok hne
    simp [runModels, hok, hne]
  | cons c cs ih =>
    intro m rest t lastErr h429 hok hne
    have hc : oracle c = GOut.http 429 := h429 c (by simp)
    have ht := ih m rest t (some (GErr.httpErr 429 c))
      (fun x hx => h429 x (by simp [hx])) hok hne
    simp [runModels, hc, ht]

/-- C2 witness: one rate limited candidate, then a successful one. -/
theorem callGemini_rateLimit_falls_through_witness :
    runModels (fun x => if x = "a" then GOut.http 429 else GOut.reply (chars "hi"))
      (["a"] ++ "b" :: []) none =
      (Except.ok (chars "hi"),
       [GEvent.call "a", GEvent.wait 3000, GEvent.call "b"]) := by
  have h := callGemini_rateLimit_falls_through
    (fun x => if x = "a" then GOut.http 429 else GOut.reply (chars "hi"))
    ["a"] "b" [] (chars "hi") none (by decide) (by decide) (by decide)
  simpa using h

/-- C6: the fallback intent detection tests the weather keyword set first on
the lowercased message, so weather wins ties; a news match without a weather
match yields news; no match yields general. -/
theorem fallbackIntentDetection_keyword_priority :
    ∀ msg : List Char,
      (testAny weatherKeywords (lowerL msg) = true →
        (fallbackIntentDetection msg).intent = chars "weather")
      ∧ (testAny weatherKeywords (lowerL msg) = false →
          testAny newsKeywords (lowerL msg) = true →
        (fallbackIntentDetection msg).intent = chars "news")
      ∧ (testAny weatherKeywords (lowerL msg) = false →
          testAny newsKeywords (lowerL msg) = false →
        (fallbackIntentDetection msg).intent = chars "general") := by
  intro msg
  refine ⟨fun h => ?_, fun h1 h2 => ?_, fun h1 h2 => ?_⟩ <;>
    simp [fallbackIntentDetection, *]

/-- C6 witness: a message matching both keyword sets routes to weather, a
news-only message to news, a neutral message to general. -/
theorem fallbackIntentDetection_keyword_priority_witness :
    (fallbackIntentDetection (chars "weather or latest news")).intent = chars "weather"
    ∧ (fallbackIntentDetection (chars "show me the latest news")).intent = chars "news"
    ∧ (fallbackIntentDetection (chars "hello there")).intent = chars "general" :=
  ⟨(fallbackIntentDetection_keyword_priority (chars "weather or latest news")).1
      (by decide),
   (fallbackIntentDetection_keyword_priority (chars "show me the latest news")).2.1
      (by decide) (by decide),
   (fallbackIntentDetection_keyword_priority (chars "hello there")).2.2
      (by decide) (by decide)⟩

/-- C7: with the credential configured and an empty resolved location,
handleWeather returns the prompt for a location and sends no provider
request. -/
theorem handleWeather_emptyLocation_prompts :
    ∀ (loc : LocIn) (activity : Option (List Char))
      (oracle : List Char → Option WeatherData) (advice : Except Unit (List Char)),
      trimJS (locToStr loc) = [] →
      handleWeather true loc activity oracle advice =
        ⟨chars "Please provide a valid location.", none⟩ := by
  intro loc activity oracle advice h
  have hq : resolveWeatherQuery loc = [] := by
    simp [resolveWeatherQuery, h]
    decide
  simp [handleWeather, hq]

/-- C7 witness: a null location resolves to the empty query. -/
theorem handleWeather_emptyLocation_prompts_witness :
    handleWeather true LocIn.nullv none (fun _ => none) (Except.error ()) =
      ⟨chars "Please provide a valid location.", none⟩ :=
  handleWeather_emptyLocation_prompts LocIn.nullv none (fun _ => none)
    (Except.error ()) rfl

/-- C9 counterexample: the location delhi is sent to the provider as
delhi, India; the New Delhi rewrite never applies to it because the country
hint is appended first, so the claimed rewrite to New Delhi, India is false. -/
theorem handleWeather_delhi_not_rewritten :
    (handleWeather true (LocIn.strv (chars "delhi")) none (fun _ => none)
        (Except.error ())).sent = some (chars "delhi, India")
    ∧ chars "delhi, India" ≠ chars "New Delhi, India" :=
  ⟨rfl, by decide⟩

/-- C9 amended: for every location whose trimmed text is nonempty and does not
contain india after lowercasing, the query sent to the provider is the trimmed
location with the country hint appended, whatever the city; the delhi branch
is unreachable because the appended hint makes the equality test fail. -/
theorem handleWeather_appends_india :
    ∀ (s : List Char) (activity : Option (List Char))
      (oracle : List Char → Option WeatherData) (advice : Except Unit (List Char)),
      trimJS s ≠ [] → hasSubstr (lowerL (trimJS s)) (chars "india") = false →
      (handleWeather true (LocIn.strv s) activity oracle advice).sent =
        some (trimJS s ++ chars ", India") := by
  intro s activity oracle advice h1 h2
  have hdel : lowerL (trimJS s ++ chars ", India") ≠ chars "delhi" := by
    intro he
    have hlen := congrArg List.length he
    simp only [lowerL, List.length_map, List.length_append] at hlen
    have h7 : (chars ", India").length = 7 := rfl
    have h5 : (chars "delhi").length = 5 := rfl
    rw [h7, h5] at hlen
    omega
  have hq : resolveWeatherQuery (LocIn.strv s) = trimJS s ++ chars ", India" := by
    simp [resolveWeatherQuery, locToStr, h1, h2, hdel]
  have hne : trimJS s ++ chars ", India" ≠ [] := by
    intro hcon
    exact h1 (List.append_eq_nil.mp hcon).1
  cases ho : oracle (trimJS s ++ chars ", India") <;>
    simp [handleWeather, hq, hne, ho]

/-- C9 witness: Tokyo is also rewritten to Tokyo, India. -/
theorem handleWeather_appends_india_witness :
    (handleWeather true (LocIn.strv (chars "Tokyo")) none (fun _ => none)
        (Except.error ())).sent = some (chars "Tokyo, India") :=
  handleWeather_appends_india (chars "Tokyo") none (fun _ => none)
    (Except.error ()) (by decide) (by decide)

/-- C10: a successful completion summary that is nonempty and not a refusal is
returned at once and no headlines request is issued; when the summary call
fails, the provider path runs and a request is issued. -/
theorem handleNews_summary_short_circuits :
    (∀ (topic : Option (List Char)) (msg raw : List Char)
        (news : NewsReq → Option (List Article)),
        raw ≠ [] → hasSubstr raw (chars "cannot fulfill") = false →
        handleNews true topic msg (Except.ok raw) news = ⟨raw, none⟩)
    ∧ ∀ (topic : Option (List Char)) (msg : List Char)
        (news : NewsReq → Option (List Article)),
        (handleNews true topic msg (Except.error ()) news).sent.isSome = true := by
  constructor
  · intro topic msg raw news h1 h2
    simp [handleNews, h1, h2]
  · intro topic msg news
    show (newsFallback topic msg news).sent.isSome = true
    unfold newsFallback
    dsimp only
    split <;> rfl

/-- C10 witness: a concrete successful summary is returned without any
provider request. -/
theorem handleNews_summary_short_circuits_witness :
    handleNews true none (chars "latest news") (Except.ok (chars "All good"))
      (fun _ => none) = ⟨chars "All good", none⟩ :=
  handleNews_summary_short_circuits.1 none (chars "latest news") (chars "All good")
    (fun _ => none) (by decide) (by decide)

/-- C8 counterexample: server.js builds the candidate list without removing
duplicates, so the default preferred model gemini-2.0-flash occurs twice and,
with every candidate unavailable, is called twice in one callGemini run. -/
theorem serverModels_duplicate_attempt :
    ((callGemini true (fun _ => GOut.http 503) "gemini-2.0-flash").2).count
        (GEvent.call "gemini-2.0-flash") = 2
    ∧ ¬ (serverModelsToTry "gemini-2.0-flash").Nodup := by
  constructor
  · rfl
  · decide

/-- C8 amended: in server.js the candidate list is the preferred model
followed by the fixed fallbacks verbatim, with no deduplication, so a
preferred model equal to a fallback is attempted twice; the part_002 variant
does deduplicate and its candidate list never repeats a model. -/
theorem modelsToTry_dedup_only_in_part002 :
    (∀ model : String, serverModelsToTry model =
      [model, "gemini-2.0-flash", "gemini-1.5-flash-latest", "gemini-1.5-flash-002"])
    ∧ ∀ model : String, (part002ModelsToTry model).Nodup := by
  constructor
  · intro model; rfl
  · intro model
    unfold part002ModelsToTry
    by_cases hm : model = ""
    · simp [hm]
    · by_cases hg : model = "gemini-2.0-flash"
      · simp [hm, hg]
      · simp [hm, hg]
        rw [if_neg (fun h => hg h.symm)]
        simp [List.nodup_cons, hg]

/-! ### Session memory lemmas -/

/-- lastN keeps a list that is already within the bound. -/
theorem lastN_of_le (n : Nat) (l : List Turn) (h : l.length ≤ n) : lastN n l = l := by
  unfold lastN
  have h0 : l.length - n = 0 := by omega
  rw [h0, List.drop_zero]

/-- The length of lastN is the minimum of the bound and the list length. -/
theorem lastN_length (n : Nat) (l : List Turn) :
    (lastN n l).length = min l.length n := by
  unfold lastN
  rw [List.length_drop]
  omega

/-- Cutting to the last n entries commutes with appending later entries. -/
theorem lastN_append_lastN (n : Nat) (a b : List Turn) :
    lastN n (lastN n a ++ b) = lastN n (a ++ b) := by
  unfold lastN
  by_cases hn : a.length ≤ n
  · have h0 : a.length - n = 0 := by omega
    rw [h0, List.drop_zero]
  · push_neg at hn
    have hlen : (a.drop (a.length - n)).length = n := by
      rw [List.length_drop]; omega
    rw [List.length_append, List.length_append, hlen]
    by_cases hb : n ≤ b.length
    · have e1 : n + b.length - n = (a.drop (a.length - n)).length + (b.length - n) := by
        rw [hlen]; omega
      have e2 : a.length + b.length - n = a.length + (b.length - n) := by omega
      rw [e1, List.drop_append, e2, List.drop_append]
    · push_neg at hb
      have e1 : n + b.length - n = b.length := by omega
      rw [e1]
      rw [List.drop_append_of_le_length (by omega : b.length ≤ (a.drop (a.length - n)).length)]
      rw [List.drop_drop]
      rw [List.drop_append_of_le_length (by omega : a.length + b.length - n ≤ a.length)]
      congr 2
      omega

/-- One append step: the result is the last twelve of the extended history,
and the bound is preserved. -/
theorem updateSessionHistory_step (h : List Turn) (e : String × String) :
    updateSessionHistory h e.1 e.2 = lastN (MAX_HISTORY_TURNS * 2) (h ++ [toTurn e])
    ∧ (updateSessionHistory h e.1 e.2).length ≤ MAX_HISTORY_TURNS * 2 := by
  unfold updateSessionHistory
  have he : toTurn (e.1, e.2) = toTurn e := rfl
  rw [he]
  by_cases hc : (h ++ [toTurn e]).length > MAX_HISTORY_TURNS * 2
  · rw [if_pos hc]
    refine ⟨rfl, ?_⟩
    rw [lastN_length]
    omega
  · rw [if_neg hc]
    push_neg at hc
    exact ⟨(lastN_of_le _ _ hc).symm, by simpa using hc⟩

/-- Folding appends from a bounded history yields the last twelve of the whole
extended sequence. -/
theorem appendAll_from (es : List (String × String)) :
    ∀ h : List Turn, h.length ≤ MAX_HISTORY_TURNS * 2 →
    es.foldl (fun acc e => updateSessionHistory acc e.1 e.2) h =
      lastN (MAX_HISTORY_TURNS * 2) (h ++ es.map toTurn) := by
  induction es with
  | nil =>
    intro h hle
    simpa using (lastN_of_le _ h hle).symm
  | cons e t ih =>
    intro h hle
    rw [List.foldl_cons]
    have h1 := updateSessionHistory_step h e
    rw [ih _ h1.2, h1.1, lastN_append_lastN]
    simp

/-- C5: appending any sequence of turns to one session leaves exactly the most
recent MAX_HISTORY_TURNS * 2 entries in append order, hence the stored length
never exceeds the bound, and a sequence within the bound is kept whole. -/
theorem sessionHistory_sliding_window :
    ∀ es : List (String × String),
      appendAll es = lastN (MAX_HISTORY_TURNS * 2) (es.map toTurn)
      ∧ (appendAll es).length ≤ MAX_HISTORY_TURNS * 2
      ∧ (es.length ≤ MAX_HISTORY_TURNS * 2 → appendAll es = es.map toTurn) := by
  intro es
  have h0 : appendAll es = lastN (MAX_HISTORY_TURNS * 2) (es.map toTurn) := by
    unfold appendAll
    simpa using appendAll_from es [] (by simp)
  refine ⟨h0, ?_, ?_⟩
  · rw [h0, lastN_length]
    omega
  · intro hle
    rw [h0]
    exact lastN_of_le _ _ (by simpa using hle)

/-- C5 witness: thirteen appended turns keep exactly the last twelve, and a
short sequence is kept whole. -/
theorem sessionHistory_sliding_window_witness :
    (appendAll ((List.range 13).map (fun i => ("user", toString i)))).length ≤
      MAX_HISTORY_TURNS * 2
    ∧ appendAll ((List.range 13).map (fun i => ("user", toString i))) =
        lastN (MAX_HISTORY_TURNS * 2)
          (((List.range 13).map (fun i => ("user", toString i))).map toTurn)
    ∧ appendAll [("user", "hi"), ("model", "hello")] =
        [⟨"user", "hi"⟩, ⟨"model", "hello"⟩] :=
  ⟨(sessionHistory_sliding_window _).2.1,
   (sessionHistory_sliding_window _).1,
   (sessionHistory_sliding_window [("user", "hi"), ("model", "hello")]).2.2
     (by decide)⟩

/-! ### extractJson lemmas -/

/-- The fenced alternative cannot match at a character other than a backtick. -/
theorem fenceMatchAt_cons_of_ne (c : Char) (t : List Char) (hc : c ≠ '\x60') :
    fenceMatchAt (c :: t) = none := by
  unfold fenceMatchAt
  have e : fenceLabel = '\x60' :: chars "``json" := rfl
  have h1 : fenceLabel.isPrefixOf (c :: t) = false := by
    rw [e, List.isPrefixOf_cons₂]
    have h2 : ('\x60' == c) = false := by
      simp only [beq_eq_false_iff_ne]
      exact fun h => hc h.symm
    simp [h2]
  simp [h1]

/-- The brace alternative cannot match at a character other than an opening
brace. -/
theorem braceMatchAt_cons_of_ne (c : Char) (t : List Char) (hc : c ≠ '\x7b') :
    braceMatchAt (c :: t) = none := by
  unfold braceMatchAt
  have h1 : (c == '\x7b') = false := by
    simp only [beq_eq_false_iff_ne]
    exact hc
  simp [h1]

/-- The unfolding equation of regexScan on a nonempty list. -/
theorem regexScan_cons (c : Char) (t : List Char) :
    regexScan (c :: t) =
      match fenceMatchAt (c :: t) with
      | some g => some g
      | none =>
        match braceMatchAt (c :: t) with
        | some g => some g
        | none => regexScan t := rfl

/-- The unfolding equation of extractJson on a present text. -/
theorem extractJson_some (l : List Char) :
    extractJson (some l) =
      if l = [] then none
      else
        match regexScan l with
        | none => none
        | some g => parseJson (trimJS g) := rfl

/-- Scanning skips over a leading segment free of braces and backticks. -/
theorem regexScan_append_of_clean (pre l : List Char)
    (hpre : ∀ c ∈ pre, c ≠ '\x7b' ∧ c ≠ '\x60') :
    regexScan (pre ++ l) = regexScan l := by
  induction pre with
  | nil => rfl
  | cons c t ih =>
    have hc := hpre c (List.mem_cons_self c t)
    rw [List.cons_append, regexScan_cons,
      fenceMatchAt_cons_of_ne c _ hc.2, braceMatchAt_cons_of_ne c _ hc.1]
    exact ih (fun x hx => hpre x (List.mem_cons_of_mem c hx))

/-- Splitting at the closing fence finds exactly the backtick free body. -/
theorem splitAtTicks_clean (s post : List Char) (hs : ∀ c ∈ s, c ≠ '\x60') :
    splitAtTicks (s ++ (ticks ++ post)) = some (s, post) := by
  induction s with
  | nil =>
    rw [List.nil_append]
    have e : ticks ++ post = '\x60' :: (chars "``" ++ post) := rfl
    rw [e]
    unfold splitAtTicks
    have h1 : ticks.isPrefixOf ('\x60' :: (chars "``" ++ post)) = true := by
      rw [← e]
      exact List.isPrefixOf_iff_prefix.mpr (List.prefix_append _ _)
    simp only [h1, if_true]
    rw [← e, List.drop_left' (show ticks.length = 3 from rfl)]
  | cons c s' ih =>
    rw [List.cons_append]
    unfold splitAtTicks
    have h1 : ticks.isPrefixOf (c :: (s' ++ (ticks ++ post))) = false := by
      have e : ticks = '\x60' :: chars "``" := rfl
      rw [e, List.isPrefixOf_cons₂]
      have hc : ('\x60' == c) = false := by
        simp only [beq_eq_false_iff_ne]
        exact fun h => (hs c (List.mem_cons_self c s')) h.symm
      simp [hc]
    simp only [h1, Bool.false_eq_true, if_false]
    rw [ih (fun x hx => hs x (List.mem_cons_of_mem c hx))]

/-- The fenced alternative at the fence start captures exactly the body. -/
theorem fenceMatchAt_full (s post : List Char) (hs : ∀ c ∈ s, c ≠ '\x60') :
    fenceMatchAt (fenceLabel ++ (s ++ (ticks ++ post))) = some s := by
  unfold fenceMatchAt
  have h1 : fenceLabel.isPrefixOf (fenceLabel ++ (s ++ (ticks ++ post))) = true :=
    List.isPrefixOf_iff_prefix.mpr (List.prefix_append _ _)
  simp only [h1, if_true]
  rw [List.drop_left' (show fenceLabel.length = 7 from rfl)]
  rw [splitAtTicks_clean s post hs]

/-- C4 counterexample: a well formed object inside a proper fenced block, with
leading prose containing a brace, extracts to null instead of the object,
because the brace alternative matches at the earlier position and captures a
span up to the last closing brace that is not valid JSON. -/
theorem extractJson_brace_prose_counterexample :
    extractJson (some (chars "see \x7bbraces\x7d here ```json \x7b\"a\": 1\x7d ```")) = none
    ∧ parseJson (chars "\x7b\"a\": 1\x7d") =
        some (Json.obj [(chars "a", Json.num (chars "1"))]) :=
  ⟨rfl, rfl⟩

/-- C4 amended: the round trip holds for a fenced well formed object whenever
the prose before the fence contains no opening brace and no backtick and the
serialized object contains no backtick; null and empty input give null, and a
candidate that fails to parse gives null rather than raising (the embedding is
a total function because the source catches every parse throw). -/
theorem extractJson_roundtrip_guarded :
    (∀ (pre s post : List Char) (j : Json),
        (∀ c ∈ pre, c ≠ '\x7b' ∧ c ≠ '\x60') → (∀ c ∈ s, c ≠ '\x60') →
        parseJson (trimJS s) = some j →
        extractJson (some (pre ++ (fenceLabel ++ (s ++ (ticks ++ post))))) = some j)
    ∧ extractJson none = none
    ∧ extractJson (some []) = none
    ∧ (∀ (l g : List Char), regexScan l = some g → parseJson (trimJS g) = none →
        extractJson (some l) = none) := by
  refine ⟨?_, rfl, rfl, ?_⟩
  · intro pre s post j hpre hs hparse
    have hscan : regexScan (pre ++ (fenceLabel ++ (s ++ (ticks ++ post)))) = some s := by
      rw [regexScan_append_of_clean pre _ hpre]
      have e : fenceLabel ++ (s ++ (ticks ++ post)) =
          '\x60' :: (chars "``json" ++ (s ++ (ticks ++ post))) := rfl
      rw [e, regexScan_cons, ← e, fenceMatchAt_full s post hs]
    have hne : pre ++ (fenceLabel ++ (s ++ (ticks ++ post))) ≠ [] := by
      intro hcon
      have h2 := (List.append_eq_nil.mp hcon).2
      have h3 := (List.append_eq_nil.mp h2).1
      exact absurd h3 (by decide)
    rw [extractJson_some, if_neg hne, hscan]
    exact hparse
  · intro l g h1 h2
    cases l with
    | nil => simp [regexScan] at h1
    | cons c t =>
      rw [extractJson_some, if_neg (by simp), h1]
      exact h2

/-- C4 witness: a concrete fenced object with benign prose round trips, and
the empty input gives null. -/
theorem extractJson_roundtrip_guarded_witness :
    parseJson (trimJS (chars "\x7b\"ok\": true\x7d")) =
      some (Json.obj [(chars "ok", Json.bool true)])
    ∧ extractJson (some (chars "Sure, here is the result: " ++
        (fenceLabel ++ (chars "\x7b\"ok\": true\x7d" ++ (ticks ++ chars " Done."))))) =
      some (Json.obj [(chars "ok", Json.bool true)]) :=
  ⟨rfl,
   extractJson_roundtrip_guarded.1 (chars "Sure, here is the result: ")
     (chars "\x7b\"ok\": true\x7d") (chars " Done.")
     (Json.obj [(chars "ok", Json.bool true)]) (by decide) (by decide) rfl⟩

end NodeMesh
